import Mathlib

/-!
Verification of the `parse_go_timestamp` standard-library function of the
expression-language compilation core (source: `src/stdlib/parse_go_timestamp.rs`).

The development shallowly embeds the Rust source: the runtime value model,
the core `parse_go_timestamp` helper, the compiled node's `resolve` and
`type_def`, and the `compile` step with its argument machinery.  External
crates (`gostd_time`, `chrono`) are modelled at their documented interface:
the Go-layout parser `ParseInLocation` is an abstract parameter, and
`chrono::DateTime::from_timestamp` is modelled with its documented validity
range.  Pieces of the compilation core that live in the repository but
outside the provided source file (`ArgumentList`, `resolve_constant`,
argument binding) are modelled from the specification and marked as such.
-/

set_option autoImplicit false

namespace VrlGoTimestamp

/-- Instant with sub-second precision, modelling `chrono::DateTime<Utc>` as
the Unix seconds plus the nanosecond component. -/
structure Timestamp where
  secs : Int
  nsecs : Nat
  deriving DecidableEq, Repr

/-- Runtime value of the expression language: the closed tagged union
`Value` of the source (`Bytes`, `Integer`, `Float`, `Boolean`, `Timestamp`,
`Regex`, `Array`, `Object`, `Null`).  Byte-strings are byte lists; the float
payload is kept abstract as its bit pattern, since no claim computes with
floats. -/
inductive Value where
  | bytes (b : List Nat)
  | integer (i : Int)
  | float (bits : Nat)
  | boolean (b : Bool)
  | timestamp (t : Timestamp)
  | regex (source : String)
  | array (elems : List Value)
  | object (fields : List (String × Value))
  | null

/-- Lower bound of the seconds accepted by `chrono::DateTime::from_timestamp`
(about 262000 years before the common era, per the chrono documentation). -/
def chronoMinSecs : Int := -8334601228800

/-- Upper bound of the seconds accepted by `chrono::DateTime::from_timestamp`
(about 262000 years after the common era, per the chrono documentation). -/
def chronoMaxSecs : Int := 8210266876799

/-- Model of `chrono::DateTime::from_timestamp`: `some` of the instant when
the seconds are in chrono's representable range and the nanosecond part is
below two seconds, `none` otherwise (the documented out-of-range behaviour). -/
def fromTimestamp (secs : Int) (nsecs : Nat) : Option Timestamp :=
  if chronoMinSecs ≤ secs ∧ secs ≤ chronoMaxSecs ∧ nsecs < 2000000000 then
    some ⟨secs, nsecs⟩
  else
    none

/-- Result of `gostd_time::ParseInLocation`: a Go `Time` observed through the
two accessors the source uses, `Unix()` and `Nanosecond()`. -/
structure GoTime where
  unixSec : Int
  nanos : Nat
  deriving DecidableEq, Repr

/-- Go timezone `Location`, kept abstract as its name: the source only
threads it from `LoadLocation` into `ParseInLocation`. -/
structure Location where
  name : String
  deriving DecidableEq, Repr

/-- Abstract interface of `gostd_time::ParseInLocation`: given a layout
string, an input string and a location, either a parsed Go time or a parse
failure.  The Go-layout parsing algorithm itself is an external crate and is
left abstract. -/
def GoParser : Type := String → String → Location → Option GoTime

/-- Range constraint satisfied by every `Go` time produced by layout parsing:
Go layouts read at most four year digits (years between -999 and 9999), so
the Unix seconds are bounded well inside chrono's range, and `Nanosecond()`
returns a value in `[0, 999999999]` per its documentation. -/
def GoTime.inRange (t : GoTime) : Prop :=
  -1000000000000 ≤ t.unixSec ∧ t.unixSec ≤ 1000000000000 ∧ t.nanos ≤ 999999999

/-- A Go-layout parser whose every successful result is in range. -/
def GoParserInRange (p : GoParser) : Prop :=
  ∀ f s loc t, p f s loc = some t → t.inRange

/-- Replacement character U+FFFD emitted by lossy UTF-8 decoding. -/
def replChar : Char := Char.ofNat 0xFFFD

/-- Continuation-byte test of UTF-8 decoding (`0x80 ≤ b ≤ 0xBF`). -/
def isCont (b : Nat) : Bool := 0x80 ≤ b && b ≤ 0xBF

/-- Admissible first continuation byte of a three-byte sequence: leads `0xE0`
and `0xED` restrict it to exclude overlong encodings and surrogates. -/
def cont1OK3 (b₀ b₁ : Nat) : Bool :=
  if b₀ = 0xE0 then 0xA0 ≤ b₁ && b₁ ≤ 0xBF
  else if b₀ = 0xED then 0x80 ≤ b₁ && b₁ ≤ 0x9F
  else isCont b₁

/-- Admissible first continuation byte of a four-byte sequence: leads `0xF0`
and `0xF4` restrict it to exclude overlong encodings and values beyond
U+10FFFF. -/
def cont1OK4 (b₀ b₁ : Nat) : Bool :=
  if b₀ = 0xF0 then 0x90 ≤ b₁ && b₁ ≤ 0xBF
  else if b₀ = 0xF4 then 0x80 ≤ b₁ && b₁ ≤ 0x8F
  else isCont b₁

/-- Decoding step of lossy UTF-8: given the lead byte and the remaining
bytes, the decoded character (or U+FFFD for a maximal invalid subpart) and
how many of the remaining bytes the step consumes. -/
def utf8Step (b₀ : Nat) (rest : List Nat) : Char × Nat :=
  if b₀ < 0x80 then
    (Char.ofNat b₀, 0)
  else if 0xC2 ≤ b₀ && b₀ ≤ 0xDF then
    match rest with
    | b₁ :: _ =>
      if isCont b₁ then (Char.ofNat ((b₀ - 0xC0) * 0x40 + (b₁ - 0x80)), 1)
      else (replChar, 0)
    | [] => (replChar, 0)
  else if 0xE0 ≤ b₀ && b₀ ≤ 0xEF then
    match rest with
    | b₁ :: b₂ :: _ =>
      if cont1OK3 b₀ b₁ then
        if isCont b₂ then
          (Char.ofNat ((b₀ - 0xE0) * 0x1000 + (b₁ - 0x80) * 0x40 + (b₂ - 0x80)), 2)
        else (replChar, 1)
      else (replChar, 0)
    | [b₁] => if cont1OK3 b₀ b₁ then (replChar, 1) else (replChar, 0)
    | [] => (replChar, 0)
  else if 0xF0 ≤ b₀ && b₀ ≤ 0xF4 then
    match rest with
    | b₁ :: b₂ :: b₃ :: _ =>
      if cont1OK4 b₀ b₁ then
        if isCont b₂ then
          if isCont b₃ then
            (Char.ofNat ((b₀ - 0xF0) * 0x40000 + (b₁ - 0x80) * 0x1000 +
              (b₂ - 0x80) * 0x40 + (b₃ - 0x80)), 3)
          else (replChar, 2)
        else (replChar, 1)
      else (replChar, 0)
    | [b₁, b₂] =>
      if cont1OK4 b₀ b₁ then
        if isCont b₂ then (replChar, 2) else (replChar, 1)
      else (replChar, 0)
    | [b₁] => if cont1OK4 b₀ b₁ then (replChar, 1) else (replChar, 0)
    | [] => (replChar, 0)
  else
    (replChar, 0)

/-- Character list produced by `String::from_utf8_lossy`: valid UTF-8
sequences decode to their scalar value, and each maximal invalid subpart is
replaced by U+FFFD (the WHATWG behaviour implemented by the Rust standard
library).  The fuel argument only bounds the recursion; every step consumes
at least the lead byte, so fuel equal to the byte count never runs out. -/
def utf8LossyChars : Nat → List Nat → List Char
  | _, [] => []
  | 0, _ :: _ => []
  | fuel + 1, b₀ :: rest =>
    let s := utf8Step b₀ rest
    s.1 :: utf8LossyChars fuel (rest.drop s.2)

/-- Model of `String::from_utf8_lossy` on a byte list. -/
def utf8Lossy (b : List Nat) : String := String.mk (utf8LossyChars b.length b)

/-- Byte-string encoding of a Lean string, for building concrete `Value.bytes`
inputs (UTF-8 bytes of the string). -/
def strBytes (s : String) : Value := Value.bytes (s.toUTF8.toList.map (·.toNat))

/-- Outcome of a runtime resolution: `Ok(Value)`, `Err(ExpressionError)` with
its reason string, or a process abort (`panic`), which the embedding keeps
explicit so that panic-freedom is a provable statement. -/
inductive Outcome where
  | ok (v : Value)
  | err (reason : String)
  | aborted

/-- Conversion of a successfully parsed Go time into a timestamp `Value`, as
the source performs it: `DateTime::from_timestamp(t.Unix(), t.Nanosecond() as
u32).unwrap()` — the `unwrap` aborts (`panic`) when `from_timestamp` returns
`None`. -/
def goTimeToValue (t : GoTime) : Outcome :=
  match fromTimestamp t.unixSec t.nanos with
  | some ts => Outcome.ok (Value.timestamp ts)
  | none => Outcome.aborted

/-- Format-matching loop of `parse_go_timestamp`: try each layout in declared
order with `ParseInLocation`, returning on the first success; when none
matches, the uniform conversion error. -/
def firstMatch (p : GoParser) (s : String) (formats : List String)
    (timezone : Location) : Outcome :=
  match formats with
  | [] => Outcome.err "unable to convert value to timestamp"
  | f :: rest =>
    match p f s timezone with
    | some t => goTimeToValue t
    | none => firstMatch p s rest timezone

/-- Core helper `parse_go_timestamp` of the source: byte-strings are decoded
lossily and run through the format loop, a value already a timestamp is
returned unchanged, and every other kind yields the uniform conversion
error. -/
def parse_go_timestamp (p : GoParser) (value : Value) (formats : List String)
    (timezone : Location) : Outcome :=
  match value with
  | Value.bytes v => firstMatch p (utf8Lossy v) formats timezone
  | Value.timestamp _ => Outcome.ok value
  | _ => Outcome.err "unable to convert value to timestamp"

/-- Per-record mutable runtime environment `Context`, modelled as the bound
record fields; resolution threads it explicitly. -/
abbrev Context : Type := List (String × Value)

/-- Runtime expression (`Box<dyn Expression>`): resolving against a context
yields `Ok(Value)` or `Err(ExpressionError)` together with the possibly
mutated context. -/
abbrev Expression : Type := Context → Except String Value × Context

/-- Compiled node `ParseGoTimestampFn`: the still-dynamic value
sub-expression plus the formats and location precomputed at compile time. -/
structure ParseGoTimestampFn where
  value : Expression
  formats : List String
  loc : Location

/-- Runtime resolution of the compiled node: resolve the value
sub-expression (the `?` operator propagates its error unchanged) and run
`parse_go_timestamp` on the result with the precomputed formats and
location. -/
def ParseGoTimestampFn.resolve (p : GoParser) (node : ParseGoTimestampFn)
    (ctx : Context) : Outcome × Context :=
  match node.value ctx with
  | (Except.ok v, ctx₁) => (parse_go_timestamp p v node.formats node.loc, ctx₁)
  | (Except.error e, ctx₁) => (Outcome.err e, ctx₁)

/-- Closed universe of value kinds, used by `TypeDef` kind sets and
`Parameter` schemas. -/
inductive ValueKind where
  | bytes
  | integer
  | float
  | boolean
  | timestamp
  | regex
  | array
  | object
  | null
  deriving DecidableEq, Repr

/-- Kind of a runtime value. -/
def Value.kindOf : Value → ValueKind
  | Value.bytes _ => ValueKind.bytes
  | Value.integer _ => ValueKind.integer
  | Value.float _ => ValueKind.float
  | Value.boolean _ => ValueKind.boolean
  | Value.timestamp _ => ValueKind.timestamp
  | Value.regex _ => ValueKind.regex
  | Value.array _ => ValueKind.array
  | Value.object _ => ValueKind.object
  | Value.null => ValueKind.null

/-- Static type descriptor of an expression: the set of kinds it may produce
and the fallibility flag. -/
structure TypeDef where
  kinds : List ValueKind
  fallible : Bool
  deriving DecidableEq, Repr

/-- Builder `TypeDef::timestamp()`: exactly the timestamp kind, initially
infallible. -/
def TypeDef.timestamp : TypeDef := ⟨[ValueKind.timestamp], false⟩

/-- Builder `.fallible()`: the same kind set with the fallibility flag
set. -/
def TypeDef.markFallible (td : TypeDef) : TypeDef := { td with fallible := true }

/-- Compile-time type environment `TypeState`, binding visible names to
their inferred descriptors. -/
abbrev TypeState : Type := List (String × TypeDef)

/-- Static type descriptor of the compiled node, as the source writes it:
`TypeDef::timestamp().fallible()`, independent of the node and the state. -/
def ParseGoTimestampFn.type_def (_node : ParseGoTimestampFn)
    (_state : TypeState) : TypeDef :=
  TypeDef.timestamp.markFallible

/-- Modelled from the spec: compile-time argument expression of the missing
expression grammar — a constant-foldable literal, an array literal whose
shape is known at compile time, or a dynamic (record-dependent) expression
that constant resolution cannot fold. -/
inductive CExpr where
  | lit (v : Value)
  | arrayLit (elems : List CExpr)
  | dynamic (name : String)

mutual

/-- Modelled from the spec: `resolve_constant` of the missing expression
grammar — a literal folds to its value, an array literal folds when every
element folds, a dynamic expression yields nothing. -/
def CExpr.resolve_constant : CExpr → TypeState → Option Value
  | CExpr.lit v, _ => some v
  | CExpr.arrayLit es, st =>
    match resolveConstantList es st with
    | some vs => some (Value.array vs)
    | none => none
  | CExpr.dynamic _, _ => none

/-- Constant resolution of a list of expressions, elementwise. -/
def resolveConstantList : List CExpr → TypeState → Option (List Value)
  | [], _ => some []
  | e :: es, st =>
    match CExpr.resolve_constant e st with
    | some v =>
      match resolveConstantList es st with
      | some vs => some (v :: vs)
      | none => none
    | none => none

end

mutual

/-- Modelled from the spec: runtime resolution of a compile-time argument
expression — literals evaluate to themselves, array literals evaluate
elementwise threading the context, dynamic expressions read the record
field, failing when it is absent. -/
def CExpr.resolve : CExpr → Context → Except String Value × Context
  | CExpr.lit v, ctx => (Except.ok v, ctx)
  | CExpr.arrayLit es, ctx =>
    match resolveList es ctx with
    | (Except.ok vs, ctx₁) => (Except.ok (Value.array vs), ctx₁)
    | (Except.error e, ctx₁) => (Except.error e, ctx₁)
  | CExpr.dynamic n, ctx =>
    match ctx.lookup n with
    | some v => (Except.ok v, ctx)
    | none => (Except.error ("undefined field " ++ n), ctx)

/-- Runtime resolution of a list of expressions, left to right, stopping at
the first error. -/
def resolveList : List CExpr → Context → Except String (List Value) × Context
  | [], ctx => (Except.ok [], ctx)
  | e :: es, ctx =>
    match CExpr.resolve e ctx with
    | (Except.ok v, ctx₁) =>
      match resolveList es ctx₁ with
      | (Except.ok vs, ctx₂) => (Except.ok (v :: vs), ctx₂)
      | (Except.error err, ctx₂) => (Except.error err, ctx₂)
    | (Except.error err, ctx₁) => (Except.error err, ctx₁)

end

/-- Short human-readable description of an expression, modelling the
`format!` Debug rendering the compile errors embed. -/
def Value.kindName (v : Value) : String :=
  match v.kindOf with
  | ValueKind.bytes => "bytes"
  | ValueKind.integer => "integer"
  | ValueKind.float => "float"
  | ValueKind.boolean => "boolean"
  | ValueKind.timestamp => "timestamp"
  | ValueKind.regex => "regex"
  | ValueKind.array => "array"
  | ValueKind.object => "object"
  | ValueKind.null => "null"

/-- Description of a compile-time expression, modelling
`format!` on the expression's Debug form. -/
def CExpr.describe : CExpr → String
  | CExpr.lit v => "literal " ++ v.kindName
  | CExpr.arrayLit es => "array literal of " ++ toString es.length ++ " elements"
  | CExpr.dynamic n => "dynamic expression " ++ n

/-- Model of `Value::try_bytes_utf8_lossy`: the lossy UTF-8 decoding of a
byte-string value, failure on every other kind. -/
def Value.try_bytes_utf8_lossy : Value → Option String
  | Value.bytes b => some (utf8Lossy b)
  | _ => none

/-- Compile-time error vocabulary used by the compile step:
`ExpectedStaticExpression` carries the keyword and the offending expression;
`InvalidArgument` carries the keyword, the offending expression's
description and a reason; the structural error of `required_array` carries
the keyword and the expected shape. -/
inductive FunctionError where
  | expectedStaticExpression (keyword : String) (expr : CExpr)
  | invalidArgument (keyword : String) (value : String) (error : String)
  | unexpectedExpression (keyword : String) (expected : String)

/-- Modelled from the spec: the compile-time binding of a call site's
expressions to the function's declared parameters, a keyword-to-expression
map built by the registry before `compile` runs. -/
structure ArgumentList where
  bindings : List (String × CExpr)

/-- Binding bound to a keyword, when present. -/
def ArgumentList.get (args : ArgumentList) (kw : String) : Option CExpr :=
  args.bindings.lookup kw

/-- Result of the compile step: a compiled node, a compile error, or a
process abort — `required` and `required_expr` on a missing required
argument are a programming invariant violation that aborts, which the
embedding keeps explicit. -/
inductive CompileResult where
  | ok (node : ParseGoTimestampFn)
  | err (e : FunctionError)
  | aborted

/-- Abstract interface of `gostd_time::LoadLocation`: some location for a
loadable timezone identifier, nothing otherwise.  The IANA timezone
database lookup itself is an external crate and is left abstract. -/
abbrev LoadLocationFn : Type := String → Option Location

/-- Per-element processing of the formats array, as the source's
`map`/`collect` over the array elements: each element must resolve to a
constant (else `ExpectedStaticExpression` with keyword `formats`) and be a
byte-string (else `InvalidArgument` with keyword `formats`), stopping at the
first failing element. -/
def compileFormats (state : TypeState) : List CExpr → Except FunctionError (List String)
  | [] => Except.ok []
  | e :: es =>
    match e.resolve_constant state with
    | none => Except.error (FunctionError.expectedStaticExpression "formats" e)
    | some v =>
      match v.try_bytes_utf8_lossy with
      | none =>
        Except.error (FunctionError.invalidArgument "formats" e.describe
          "go_timestamp formats should be a string array")
      | some s =>
        match compileFormats state es with
        | Except.ok rest => Except.ok (s :: rest)
        | Except.error err => Except.error err

/-- Compile step `ParseGoTimestamp::compile`, parameterised by the external
timezone loader: fetch the dynamic `value` argument, require `formats` to be
an array literal of constant byte-strings, require `timezone` to be a
constant byte-string naming a loadable timezone, and build the compiled node
embedding the precomputed formats and location. -/
def ParseGoTimestamp.compile (ll : LoadLocationFn) (state : TypeState)
    (arguments : ArgumentList) : CompileResult :=
  match arguments.get "value" with
  | none => CompileResult.aborted
  | some value =>
    match arguments.get "formats" with
    | none => CompileResult.aborted
    | some formatsExpr =>
      match formatsExpr with
      | CExpr.arrayLit elems =>
        match compileFormats state elems with
        | Except.error e => CompileResult.err e
        | Except.ok formats =>
          match arguments.get "timezone" with
          | none => CompileResult.aborted
          | some timezone_expr =>
            match timezone_expr.resolve_constant state with
            | none =>
              CompileResult.err
                (FunctionError.expectedStaticExpression "timezone" timezone_expr)
            | some v =>
              match v.try_bytes_utf8_lossy with
              | none =>
                CompileResult.err
                  (FunctionError.invalidArgument "timezone" timezone_expr.describe
                    "go_timestamp timezone should be a string")
              | some tz =>
                match ll tz with
                | none =>
                  CompileResult.err
                    (FunctionError.invalidArgument "timezone" timezone_expr.describe
                      "go_timestamp timezone should be a legal timezone")
                | some loc => CompileResult.ok ⟨value.resolve, formats, loc⟩
      | _ => CompileResult.err (FunctionError.unexpectedExpression "formats" "array")

/-- One declared parameter slot of the function schema: keyword, accepted
kind set and required flag. -/
structure Parameter where
  keyword : String
  kind : List ValueKind
  required : Bool
  deriving Repr

/-- Parameter schema declared by `ParseGoTimestamp::parameters`: `value`
(bytes or timestamp, required), `formats` (array, required), `timezone`
(bytes, required). -/
def ParseGoTimestamp.parameters : List Parameter :=
  [⟨"value", [ValueKind.bytes, ValueKind.timestamp], true⟩,
   ⟨"formats", [ValueKind.array], true⟩,
   ⟨"timezone", [ValueKind.bytes], true⟩]

/-- One call-site argument: positional, or keyword-tagged. -/
inductive CallArg where
  | positional (e : CExpr)
  | keyword (kw : String) (e : CExpr)

/-- Rejection causes of argument binding, per the specification: an unknown
keyword, a missing required parameter, or a statically known kind set
disjoint from the parameter's accepted kinds. -/
inductive BindError where
  | unknownKeyword (kw : String)
  | missingRequired (kw : String)
  | kindMismatch (kw : String)
  deriving DecidableEq, Repr

/-- Statically known kind set of a compile-time expression (`none` when the
expression is dynamic and its kinds are unknown). -/
def CExpr.staticKinds : CExpr → Option (List ValueKind)
  | CExpr.lit v => some [v.kindOf]
  | CExpr.arrayLit _ => some [ValueKind.array]
  | CExpr.dynamic _ => none

/-- Intersection test between a statically known kind set and a parameter's
accepted kinds; an unknown kind set intersects everything. -/
def kindIntersects (a : Option (List ValueKind)) (ks : List ValueKind) : Bool :=
  match a with
  | none => true
  | some xs => xs.any (fun k => ks.contains k)

/-- Modelled from the spec: assignment of call-site arguments to parameter
keywords — positional arguments bind the declared parameters in order, a
keyword argument binds the parameter of that keyword, and an unknown keyword
is rejected. -/
def assignArgs (params : List Parameter) : List CallArg → Nat →
    Except BindError (List (String × CExpr))
  | [], _ => Except.ok []
  | CallArg.positional e :: rest, pos =>
    match params[pos]? with
    | some p =>
      match assignArgs params rest (pos + 1) with
      | Except.ok bs => Except.ok ((p.keyword, e) :: bs)
      | Except.error err => Except.error err
    | none => Except.error (BindError.unknownKeyword ("positional argument " ++ toString pos))
  | CallArg.keyword kw e :: rest, pos =>
    if params.any (fun p => p.keyword == kw) then
      match assignArgs params rest pos with
      | Except.ok bs => Except.ok ((kw, e) :: bs)
      | Except.error err => Except.error err
    else
      Except.error (BindError.unknownKeyword kw)

/-- Modelled from the spec: the registry builds the `ArgumentList` for a
call site, rejecting an unknown keyword, a missing required parameter, and a
bound expression whose statically known kind set does not intersect the
parameter's accepted kinds. -/
def bindArguments (params : List Parameter) (args : List CallArg) :
    Except BindError ArgumentList :=
  match assignArgs params args 0 with
  | Except.error e => Except.error e
  | Except.ok bs =>
    match params.find? (fun p => p.required && !(bs.any (fun b => b.1 == p.keyword))) with
    | some p => Except.error (BindError.missingRequired p.keyword)
    | none =>
      match bs.find? (fun b =>
          match params.find? (fun p => p.keyword == b.1) with
          | some p => !kindIntersects (b.2).staticKinds p.kind
          | none => false) with
      | some b => Except.error (BindError.kindMismatch b.1)
      | none => Except.ok ⟨bs⟩

/-- Call-site arguments of the source's first worked example:
`parse_go_timestamp!("11-Feb-2021 16:00 +00:00",
format: "02-Jan-2006 15:04 +07:00")`. -/
def example1Args : List CallArg :=
  [CallArg.positional (CExpr.lit (strBytes "11-Feb-2021 16:00 +00:00")),
   CallArg.keyword "format" (CExpr.lit (strBytes "02-Jan-2006 15:04 +07:00"))]

/-- Call-site arguments of the source's second worked example:
`parse_go_timestamp!("16/10/2019 12:00:00", format: "02/01/2006 15:04:05",
timezone: "Europe/Paris")`. -/
def example2Args : List CallArg :=
  [CallArg.positional (CExpr.lit (strBytes "16/10/2019 12:00:00")),
   CallArg.keyword "format" (CExpr.lit (strBytes "02/01/2006 15:04:05")),
   CallArg.keyword "timezone" (CExpr.lit (strBytes "Europe/Paris"))]

/-- Concrete Go parser exercising format precedence: layout `A` fails while
`F` and `G` both succeed, with distinct results. -/
def pW : GoParser := fun g _ _ =>
  if g = "A" then none
  else if g = "F" then some ⟨5, 5⟩
  else some ⟨7, 7⟩

/-- Helper: with an in-range parser the format loop always lands on `Ok` or
`Err`, never on the abort of the `unwrap`. -/
theorem firstMatch_total (p : GoParser) (hp : GoParserInRange p) (s : String)
    (tz : Location) (formats : List String) :
    (∃ v, firstMatch p s formats tz = Outcome.ok v) ∨
    (∃ e, firstMatch p s formats tz = Outcome.err e) := by
  induction formats with
  | nil => exact Or.inr ⟨_, rfl⟩
  | cons f rest ih =>
    cases hpf : p f s tz with
    | none =>
      have hstep : firstMatch p s (f :: rest) tz = firstMatch p s rest tz := by
        simp only [firstMatch, hpf]
      rw [hstep]
      exact ih
    | some t =>
      have h := hp f s tz t hpf
      simp only [GoTime.inRange] at h
      obtain ⟨h₁, h₂, h₃⟩ := h
      have hcond : chronoMinSecs ≤ t.unixSec ∧ t.unixSec ≤ chronoMaxSecs ∧
          t.nanos < 2000000000 := by
        simp only [chronoMinSecs, chronoMaxSecs]
        omega
      exact Or.inl ⟨Value.timestamp ⟨t.unixSec, t.nanos⟩,
        by simp only [firstMatch, hpf, goTimeToValue, fromTimestamp, if_pos hcond]⟩

/-- Helper: when every declared format fails to parse, the loop falls
through to the uniform conversion error. -/
theorem firstMatch_all_fail (p : GoParser) (s : String) (tz : Location) :
    ∀ formats : List String, (∀ f ∈ formats, p f s tz = none) →
      firstMatch p s formats tz = Outcome.err "unable to convert value to timestamp" := by
  intro formats
  induction formats with
  | nil => intro _; rfl
  | cons f rest ih =>
    intro hall
    simp only [firstMatch, hall f (by simp)]
    exact ih (fun g hg => hall g (by simp [hg]))

/-- Helper: the loop returns the conversion of the first successfully
parsed format, skipping the failing ones before it. -/
theorem firstMatch_first_success (p : GoParser) (s : String) (tz : Location)
    (f : String) (t : GoTime) (post : List String) (hf : p f s tz = some t) :
    ∀ pre : List String, (∀ g ∈ pre, p g s tz = none) →
      firstMatch p s (pre ++ f :: post) tz = goTimeToValue t := by
  intro pre
  induction pre with
  | nil => intro _; simp [firstMatch, hf]
  | cons g gs ih =>
    intro hpre
    simp only [List.cons_append, firstMatch, hpre g (by simp)]
    exact ih (fun x hx => hpre x (by simp [hx]))

/-- C1: for every runtime context and input value, resolution of a compiled
node returns `Ok` with a value or `Err` with a reason string and never
aborts; in particular the `unwrap` inside the conversion of a successfully
parsed Go time cannot abort, because every Go time a layout parse can
produce is within chrono's representable range. -/
theorem resolve_never_aborts (p : GoParser) (hp : GoParserInRange p)
    (node : ParseGoTimestampFn) (ctx : Context) :
    (∃ v, (node.resolve p ctx).1 = Outcome.ok v) ∨
    (∃ e, (node.resolve p ctx).1 = Outcome.err e) := by
  rcases hres : node.value ctx with ⟨r, ctx₁⟩
  cases r with
  | error e => exact Or.inr ⟨e, by simp [ParseGoTimestampFn.resolve, hres]⟩
  | ok v =>
    have hgoal : (node.resolve p ctx).1 = parse_go_timestamp p v node.formats node.loc := by
      simp [ParseGoTimestampFn.resolve, hres]
    rw [hgoal]
    cases v with
    | bytes b => exact firstMatch_total p hp (utf8Lossy b) node.loc node.formats
    | timestamp t => exact Or.inl ⟨_, rfl⟩
    | integer i => exact Or.inr ⟨_, rfl⟩
    | float bits => exact Or.inr ⟨_, rfl⟩
    | boolean bv => exact Or.inr ⟨_, rfl⟩
    | regex src => exact Or.inr ⟨_, rfl⟩
    | array elems => exact Or.inr ⟨_, rfl⟩
    | object fields => exact Or.inr ⟨_, rfl⟩
    | null => exact Or.inr ⟨_, rfl⟩

/-- Witness for C1 at a concrete parser, node and context. -/
theorem resolve_never_aborts_witness :
    (∃ v, (ParseGoTimestampFn.resolve (fun _ _ _ => none)
        ⟨fun ctx => (Except.ok (Value.bytes []), ctx), ["F"], ⟨"UTC"⟩⟩ []).1 = Outcome.ok v) ∨
    (∃ e, (ParseGoTimestampFn.resolve (fun _ _ _ => none)
        ⟨fun ctx => (Except.ok (Value.bytes []), ctx), ["F"], ⟨"UTC"⟩⟩ []).1 = Outcome.err e) :=
  resolve_never_aborts (fun _ _ _ => none) (fun _ _ _ _ h => nomatch h) _ []

/-- C2: on a byte-string input, when every format before `f` in the declared
list fails to parse the lossily decoded text and `f` parses it to the Go
time `t`, resolution returns the conversion of `t` — the loop stops at the
first successful parse, regardless of what later formats would do. -/
theorem first_format_wins (p : GoParser) (b : List Nat) (tz : Location)
    (pre post : List String) (f : String) (t : GoTime)
    (hpre : ∀ g ∈ pre, p g (utf8Lossy b) tz = none)
    (hf : p f (utf8Lossy b) tz = some t) :
    parse_go_timestamp p (Value.bytes b) (pre ++ f :: post) tz = goTimeToValue t :=
  firstMatch_first_success p (utf8Lossy b) tz f t post hf pre hpre

/-- Witness for C2: formats `F` and `G` both match, the result is the one
produced by `F`, the first match in declared order. -/
theorem first_format_wins_witness :
    parse_go_timestamp pW (Value.bytes []) ["A", "F", "G"] ⟨"UTC"⟩ =
      Outcome.ok (Value.timestamp ⟨5, 5⟩) := by
  have h := first_format_wins pW [] ⟨"UTC"⟩ ["A"] ["G"] "F" ⟨5, 5⟩
    (by intro g hg; simp at hg; subst hg; rfl) rfl
  exact h.trans rfl

/-- C3: when the value sub-expression resolves to a value that is already a
timestamp, the node returns exactly that value, whatever formats and
location it was compiled with, and leaves the context as the child left
it. -/
theorem timestamp_identity (p : GoParser) (node : ParseGoTimestampFn)
    (ctx ctx₁ : Context) (t : Timestamp)
    (h : node.value ctx = (Except.ok (Value.timestamp t), ctx₁)) :
    node.resolve p ctx = (Outcome.ok (Value.timestamp t), ctx₁) := by
  simp [ParseGoTimestampFn.resolve, h, parse_go_timestamp]

/-- Witness for C3 at a concrete node and timestamp. -/
theorem timestamp_identity_witness :
    ParseGoTimestampFn.resolve (fun _ _ _ => none)
        ⟨fun ctx => (Except.ok (Value.timestamp ⟨60, 0⟩), ctx), ["F"], ⟨"UTC"⟩⟩ [] =
      (Outcome.ok (Value.timestamp ⟨60, 0⟩), []) :=
  timestamp_identity (fun _ _ _ => none) _ [] [] ⟨60, 0⟩ rfl

/-- C4: a byte-string no declared format parses fails with the single
uniform reason string, and an input of any kind other than byte-string and
timestamp fails with exactly the same reason string. -/
theorem mismatch_uniform_error (p : GoParser) (formats : List String)
    (tz : Location) (b : List Nat) (v : Value)
    (hb : ∀ f ∈ formats, p f (utf8Lossy b) tz = none)
    (hv : (∀ bs, v ≠ Value.bytes bs) ∧ ∀ t, v ≠ Value.timestamp t) :
    parse_go_timestamp p (Value.bytes b) formats tz =
      Outcome.err "unable to convert value to timestamp" ∧
    parse_go_timestamp p v formats tz =
      Outcome.err "unable to convert value to timestamp" := by
  constructor
  · exact firstMatch_all_fail p (utf8Lossy b) tz formats hb
  · cases v with
    | bytes bs => exact absurd rfl (hv.1 bs)
    | timestamp t => exact absurd rfl (hv.2 t)
    | integer i => rfl
    | float bits => rfl
    | boolean bv => rfl
    | regex src => rfl
    | array elems => rfl
    | object fields => rfl
    | null => rfl

/-- Witness for C4 at a failing parser, a byte-string and a null value. -/
theorem mismatch_uniform_error_witness :
    parse_go_timestamp (fun _ _ _ => none) (Value.bytes []) ["F"] ⟨"UTC"⟩ =
      Outcome.err "unable to convert value to timestamp" ∧
    parse_go_timestamp (fun _ _ _ => none) Value.null ["F"] ⟨"UTC"⟩ =
      Outcome.err "unable to convert value to timestamp" :=
  mismatch_uniform_error (fun _ _ _ => none) ["F"] ⟨"UTC"⟩ [] Value.null
    (fun _ _ => rfl) ⟨fun _ h => (nomatch h), fun _ h => (nomatch h)⟩

/-- Helper: when the formats elements all compile, every element resolved to
a compile-time constant. -/
theorem compileFormats_ok_constant (state : TypeState) :
    ∀ (elems : List CExpr) (fmts : List String),
      compileFormats state elems = Except.ok fmts →
      ∀ x ∈ elems, ∃ v, x.resolve_constant state = some v := by
  intro elems
  induction elems with
  | nil => intro fmts _ x hx; simp at hx
  | cons e es ih =>
    intro fmts h x hx
    simp only [compileFormats] at h
    cases hc : e.resolve_constant state with
    | none => simp [hc] at h
    | some v =>
      simp only [hc] at h
      cases hb : v.try_bytes_utf8_lossy with
      | none => simp [hb] at h
      | some s =>
        simp only [hb] at h
        rcases List.mem_cons.mp hx with rfl | hx₁
        · exact ⟨v, hc⟩
        · cases hrest : compileFormats state es with
          | error err => simp [hrest] at h
          | ok rest => exact ih rest hrest x hx₁

/-- Helper: the formats elements are processed in order and the first
non-constant element raises `ExpectedStaticExpression` for `formats`. -/
theorem compileFormats_first_nonconstant (state : TypeState) (post : List CExpr)
    (e : CExpr) (he : e.resolve_constant state = none) :
    ∀ pre : List CExpr,
      (∀ x ∈ pre, ∃ s, (x.resolve_constant state).bind Value.try_bytes_utf8_lossy = some s) →
      compileFormats state (pre ++ e :: post) =
        Except.error (FunctionError.expectedStaticExpression "formats" e) := by
  intro pre
  induction pre with
  | nil => intro _; simp [compileFormats, he]
  | cons x xs ih =>
    intro hpre
    obtain ⟨s, hs⟩ := hpre x (by simp)
    cases hc : x.resolve_constant state with
    | none => simp [hc] at hs
    | some w =>
      simp only [hc, Option.some_bind] at hs
      have hrec := ih (fun y hy => hpre y (by simp [hy]))
      simp only [List.cons_append, compileFormats, hc, hs]
      simp only [List.append_eq] at hrec ⊢
      rw [hrec]

/-- Helper: the first constant formats element that is not a byte-string
raises `InvalidArgument` for `formats` with the fixed reason string. -/
theorem compileFormats_first_invalid (state : TypeState) (post : List CExpr)
    (e : CExpr) (v : Value) (he : e.resolve_constant state = some v)
    (hv : v.try_bytes_utf8_lossy = none) :
    ∀ pre : List CExpr,
      (∀ x ∈ pre, ∃ s, (x.resolve_constant state).bind Value.try_bytes_utf8_lossy = some s) →
      compileFormats state (pre ++ e :: post) =
        Except.error (FunctionError.invalidArgument "formats" e.describe
          "go_timestamp formats should be a string array") := by
  intro pre
  induction pre with
  | nil => intro _; simp [compileFormats, he, hv]
  | cons x xs ih =>
    intro hpre
    obtain ⟨s, hs⟩ := hpre x (by simp)
    cases hc : x.resolve_constant state with
    | none => simp [hc] at hs
    | some w =>
      simp only [hc, Option.some_bind] at hs
      have hrec := ih (fun y hy => hpre y (by simp [hy]))
      simp only [List.cons_append, compileFormats, hc, hs]
      simp only [List.append_eq] at hrec ⊢
      rw [hrec]

/-- C5: a call site whose timezone argument, or a formats element, does not
resolve to a constant against the type state is rejected at compile time
with `ExpectedStaticExpression` carrying that keyword (the formats elements
are checked first, in order); and no such call site ever yields a compiled
node — whenever compile succeeds, the timezone and every formats element
resolved to constants. -/
theorem compile_rejects_nonconstant :
    (∀ (ll : LoadLocationFn) (state : TypeState) (args : ArgumentList)
        (value : CExpr) (elems : List CExpr) (fmts : List String) (tzExpr : CExpr),
      args.get "value" = some value →
      args.get "formats" = some (CExpr.arrayLit elems) →
      compileFormats state elems = Except.ok fmts →
      args.get "timezone" = some tzExpr →
      tzExpr.resolve_constant state = none →
      ParseGoTimestamp.compile ll state args =
        CompileResult.err (FunctionError.expectedStaticExpression "timezone" tzExpr)) ∧
    (∀ (ll : LoadLocationFn) (state : TypeState) (args : ArgumentList)
        (value : CExpr) (pre post : List CExpr) (e : CExpr),
      args.get "value" = some value →
      args.get "formats" = some (CExpr.arrayLit (pre ++ e :: post)) →
      (∀ x ∈ pre, ∃ s, (x.resolve_constant state).bind Value.try_bytes_utf8_lossy = some s) →
      e.resolve_constant state = none →
      ParseGoTimestamp.compile ll state args =
        CompileResult.err (FunctionError.expectedStaticExpression "formats" e)) ∧
    (∀ (ll : LoadLocationFn) (state : TypeState) (args : ArgumentList)
        (node : ParseGoTimestampFn),
      ParseGoTimestamp.compile ll state args = CompileResult.ok node →
      (∃ tzExpr v, args.get "timezone" = some tzExpr ∧
        tzExpr.resolve_constant state = some v) ∧
      (∃ elems, args.get "formats" = some (CExpr.arrayLit elems) ∧
        ∀ x ∈ elems, ∃ v, x.resolve_constant state = some v)) := by
  refine ⟨?_, ?_, ?_⟩
  · intro ll state args value elems fmts tzExpr hv hf hcf ht hrc
    simp [ParseGoTimestamp.compile, hv, hf, hcf, ht, hrc]
  · intro ll state args value pre post e hv hf hpre he
    simp [ParseGoTimestamp.compile, hv, hf,
      compileFormats_first_nonconstant state post e he pre hpre]
  · intro ll state args node h
    unfold ParseGoTimestamp.compile at h
    cases hv : args.get "value" with
    | none => simp [hv] at h
    | some value =>
      simp only [hv] at h
      cases hf : args.get "formats" with
      | none => simp [hf] at h
      | some fexpr =>
        simp only [hf] at h
        cases fexpr with
        | lit w => simp at h
        | dynamic n => simp at h
        | arrayLit elems =>
          cases hcf : compileFormats state elems with
          | error err => simp [hcf] at h
          | ok fmts =>
            simp only [hcf] at h
            cases ht : args.get "timezone" with
            | none => simp [ht] at h
            | some tzExpr =>
              simp only [ht] at h
              cases hrc : tzExpr.resolve_constant state with
              | none => simp [hrc] at h
              | some w =>
                exact ⟨⟨tzExpr, w, rfl, hrc⟩,
                  ⟨elems, rfl, compileFormats_ok_constant state elems fmts hcf⟩⟩

/-- Witness for C5: a dynamic timezone argument and a dynamic formats
element are each rejected with `ExpectedStaticExpression` carrying the
offending keyword. -/
theorem compile_rejects_nonconstant_witness :
    ParseGoTimestamp.compile (fun _ => some ⟨"UTC"⟩) []
        ⟨[("value", CExpr.dynamic "msg"),
          ("formats", CExpr.arrayLit [CExpr.lit (Value.bytes [50])]),
          ("timezone", CExpr.dynamic "tzfield")]⟩ =
      CompileResult.err (FunctionError.expectedStaticExpression "timezone"
        (CExpr.dynamic "tzfield")) ∧
    ParseGoTimestamp.compile (fun _ => some ⟨"UTC"⟩) []
        ⟨[("value", CExpr.dynamic "msg"),
          ("formats", CExpr.arrayLit [CExpr.lit (Value.bytes [50]), CExpr.dynamic "fmt"]),
          ("timezone", CExpr.lit (Value.bytes [85]))]⟩ =
      CompileResult.err (FunctionError.expectedStaticExpression "formats"
        (CExpr.dynamic "fmt")) :=
  ⟨compile_rejects_nonconstant.1 _ _ _ _ _ [utf8Lossy [50]] _ rfl rfl rfl rfl rfl,
   compile_rejects_nonconstant.2.1 _ _ _ _ [CExpr.lit (Value.bytes [50])] [] _ rfl rfl
     (by intro x hx; simp at hx; subst hx; exact ⟨utf8Lossy [50], rfl⟩) rfl⟩

/-- C6: a constant timezone that is not a byte-string, a constant timezone
naming no loadable location, and a constant formats element that is not a
byte-string are each rejected at compile time with `InvalidArgument`
carrying the offending keyword, the offending expression's description and
the fixed human-readable reason. -/
theorem compile_rejects_invalid_constant :
    (∀ (ll : LoadLocationFn) (state : TypeState) (args : ArgumentList)
        (value : CExpr) (elems : List CExpr) (fmts : List String) (tzExpr : CExpr) (v : Value),
      args.get "value" = some value →
      args.get "formats" = some (CExpr.arrayLit elems) →
      compileFormats state elems = Except.ok fmts →
      args.get "timezone" = some tzExpr →
      tzExpr.resolve_constant state = some v →
      v.try_bytes_utf8_lossy = none →
      ParseGoTimestamp.compile ll state args =
        CompileResult.err (FunctionError.invalidArgument "timezone" tzExpr.describe
          "go_timestamp timezone should be a string")) ∧
    (∀ (ll : LoadLocationFn) (state : TypeState) (args : ArgumentList)
        (value : CExpr) (elems : List CExpr) (fmts : List String) (tzExpr : CExpr)
        (v : Value) (tz : String),
      args.get "value" = some value →
      args.get "formats" = some (CExpr.arrayLit elems) →
      compileFormats state elems = Except.ok fmts →
      args.get "timezone" = some tzExpr →
      tzExpr.resolve_constant state = some v →
      v.try_bytes_utf8_lossy = some tz →
      ll tz = none →
      ParseGoTimestamp.compile ll state args =
        CompileResult.err (FunctionError.invalidArgument "timezone" tzExpr.describe
          "go_timestamp timezone should be a legal timezone")) ∧
    (∀ (ll : LoadLocationFn) (state : TypeState) (args : ArgumentList)
        (value : CExpr) (pre post : List CExpr) (e : CExpr) (v : Value),
      args.get "value" = some value →
      args.get "formats" = some (CExpr.arrayLit (pre ++ e :: post)) →
      (∀ x ∈ pre, ∃ s, (x.resolve_constant state).bind Value.try_bytes_utf8_lossy = some s) →
      e.resolve_constant state = some v →
      v.try_bytes_utf8_lossy = none →
      ParseGoTimestamp.compile ll state args =
        CompileResult.err (FunctionError.invalidArgument "formats" e.describe
          "go_timestamp formats should be a string array")) := by
  refine ⟨?_, ?_, ?_⟩
  · intro ll state args value elems fmts tzExpr v hv hf hcf ht hrc hb
    simp [ParseGoTimestamp.compile, hv, hf, hcf, ht, hrc, hb]
  · intro ll state args value elems fmts tzExpr v tz hv hf hcf ht hrc hb hll
    simp [ParseGoTimestamp.compile, hv, hf, hcf, ht, hrc, hb, hll]
  · intro ll state args value pre post e v hv hf hpre he hb
    simp [ParseGoTimestamp.compile, hv, hf,
      compileFormats_first_invalid state post e v he hb pre hpre]

/-- Witness for C6: an integer timezone constant, an unknown timezone name
under a loader that knows only `UTC`, and a null formats element are each
rejected with `InvalidArgument` naming the offending keyword. -/
theorem compile_rejects_invalid_constant_witness :
    ParseGoTimestamp.compile (fun s => if s = "UTC" then some ⟨"UTC"⟩ else none) []
        ⟨[("value", CExpr.dynamic "msg"),
          ("formats", CExpr.arrayLit [CExpr.lit (Value.bytes [50])]),
          ("timezone", CExpr.lit (Value.integer 3))]⟩ =
      CompileResult.err (FunctionError.invalidArgument "timezone"
        (CExpr.lit (Value.integer 3)).describe
        "go_timestamp timezone should be a string") ∧
    ParseGoTimestamp.compile (fun s => if s = "UTC" then some ⟨"UTC"⟩ else none) []
        ⟨[("value", CExpr.dynamic "msg"),
          ("formats", CExpr.arrayLit [CExpr.lit (Value.bytes [50])]),
          ("timezone", CExpr.lit (Value.bytes [88]))]⟩ =
      CompileResult.err (FunctionError.invalidArgument "timezone"
        (CExpr.lit (Value.bytes [88])).describe
        "go_timestamp timezone should be a legal timezone") ∧
    ParseGoTimestamp.compile (fun s => if s = "UTC" then some ⟨"UTC"⟩ else none) []
        ⟨[("value", CExpr.dynamic "msg"),
          ("formats", CExpr.arrayLit [CExpr.lit Value.null]),
          ("timezone", CExpr.lit (strBytes "UTC"))]⟩ =
      CompileResult.err (FunctionError.invalidArgument "formats"
        (CExpr.lit Value.null).describe
        "go_timestamp formats should be a string array") :=
  ⟨compile_rejects_invalid_constant.1 _ _ _ _ _ [utf8Lossy [50]] _ _
      rfl rfl rfl rfl rfl rfl,
   compile_rejects_invalid_constant.2.1 _ _ _ _ _ [utf8Lossy [50]] _ _
      (utf8Lossy [88]) rfl rfl rfl rfl rfl rfl (by decide),
   compile_rejects_invalid_constant.2.2 _ _ _ _ [] [] _ Value.null
      rfl rfl (by intro x hx; simp at hx) rfl rfl⟩

/-- C8 (code bug): both worked examples of the source are rejected by
argument binding against the source's own parameter schema — the examples
pass the unknown keyword `format` (the schema declares `formats`), omit the
required `formats` array, and the first example also omits the required
`timezone` — and even an argument list bound the way the first example is
written aborts in `compile` when the required `formats` argument is
fetched, instead of producing the fixture results. -/
theorem examples_rejected_at_argument_binding :
    bindArguments ParseGoTimestamp.parameters example1Args =
      Except.error (BindError.unknownKeyword "format") ∧
    bindArguments ParseGoTimestamp.parameters example2Args =
      Except.error (BindError.unknownKeyword "format") ∧
    (∀ (ll : LoadLocationFn) (state : TypeState), ParseGoTimestamp.compile ll state
        ⟨[("value", CExpr.lit (strBytes "11-Feb-2021 16:00 +00:00")),
          ("format", CExpr.lit (strBytes "02-Jan-2006 15:04 +07:00"))]⟩ =
      CompileResult.aborted) :=
  ⟨rfl, rfl, fun _ _ => rfl⟩

/-- C7: the static type descriptor of every compiled node, in every type
state, is exactly the timestamp kind with the fallibility flag set. -/
theorem type_def_always_timestamp_fallible (node : ParseGoTimestampFn)
    (state : TypeState) :
    node.type_def state = { kinds := [ValueKind.timestamp], fallible := true } := rfl

/-- C9: when the value sub-expression fails, the node returns that error
unchanged — no format parsing is attempted (the parser and formats do not
appear in the result) and the context is exactly the one the child
produced. -/
theorem child_error_propagates (p : GoParser) (node : ParseGoTimestampFn)
    (ctx ctx₁ : Context) (e : String)
    (h : node.value ctx = (Except.error e, ctx₁)) :
    node.resolve p ctx = (Outcome.err e, ctx₁) := by
  simp [ParseGoTimestampFn.resolve, h]

/-- Witness for C9 at a concrete failing child. -/
theorem child_error_propagates_witness :
    ParseGoTimestampFn.resolve (fun _ _ _ => some ⟨0, 0⟩)
        ⟨fun ctx => (Except.error "boom", ctx), ["F"], ⟨"UTC"⟩⟩ [] =
      (Outcome.err "boom", []) :=
  child_error_propagates (fun _ _ _ => some ⟨0, 0⟩) _ [] [] "boom" rfl

/-- C10: a byte-string is never rejected for its encoding — the outcome on
bytes `b` is exactly the outcome of format matching on the lossy UTF-8
decoding of `b`, so two byte-strings with the same lossy decoding get the
same outcome. -/
theorem bytes_lossy_decoded (p : GoParser) (formats : List String)
    (tz : Location) (b b₁ : List Nat) (h : utf8Lossy b = utf8Lossy b₁) :
    parse_go_timestamp p (Value.bytes b) formats tz =
      firstMatch p (utf8Lossy b) formats tz ∧
    parse_go_timestamp p (Value.bytes b) formats tz =
      parse_go_timestamp p (Value.bytes b₁) formats tz := by
  refine ⟨rfl, ?_⟩
  show firstMatch p (utf8Lossy b) formats tz = firstMatch p (utf8Lossy b₁) formats tz
  rw [h]

/-- Witness for C10: the invalid byte `0xFF` and the UTF-8 encoding of the
replacement character decode to the same text and get the same outcome. -/
theorem bytes_lossy_decoded_witness :
    parse_go_timestamp pW (Value.bytes [0xFF]) ["F"] ⟨"UTC"⟩ =
      firstMatch pW (utf8Lossy [0xFF]) ["F"] ⟨"UTC"⟩ ∧
    parse_go_timestamp pW (Value.bytes [0xFF]) ["F"] ⟨"UTC"⟩ =
      parse_go_timestamp pW (Value.bytes [0xEF, 0xBF, 0xBD]) ["F"] ⟨"UTC"⟩ :=
  bytes_lossy_decoded pW ["F"] ⟨"UTC"⟩ [0xFF] [0xEF, 0xBF, 0xBD] rfl

end VrlGoTimestamp
